import Mathlib

/-!
Shallow embedding of the live-audio-transcription relay subsystem:
the WebSocket connection gateway (src/websocket/handler.js), the
Deepgram streaming service (deepgram-service.js), the audio-stream
validator (utils/validation.js) and the input sanitizer
(utils/security.js).  JS `Map` objects are modelled as association
lists with JS `Map` insertion semantics; JS strings as Lean `String`
(lists of characters); byte buffers as `List Nat`.
-/

/-- Association-list model of a JS `Map` keyed by strings.  Reachable
maps hold at most one entry per key. -/
abbrev Reg (α : Type) : Type := List (String × α)

/-- JS `Map.prototype.get`: first entry with the given key. -/
def mapLookup {α : Type} (k : String) : Reg α → Option α
  | [] => none
  | (k₂, v) :: rest => if k₂ = k then some v else mapLookup k rest

/-- JS `Map.prototype.set`: replace the value in place if the key is
present, otherwise append a new entry. -/
def mapSet {α : Type} (k : String) (v : α) : Reg α → Reg α
  | [] => [(k, v)]
  | (k₂, v₂) :: rest =>
      if k₂ = k then (k, v) :: rest else (k₂, v₂) :: mapSet k v rest

/-- JS `Map.prototype.delete`: drop the entry with the given key
(written as a filter; on maps with unique keys this is the same). -/
def mapErase {α : Type} (k : String) (r : Reg α) : Reg α :=
  r.filter (fun e => !(e.1 = k : Bool))

/-- Key uniqueness: the invariant every reachable JS `Map` satisfies. -/
def keysUnique {α : Type} (r : Reg α) : Prop := (r.map Prod.fst).Nodup

/-! Sanitizer (src/utils/security.js, `sanitizeInput`).  JS regexes are
embedded as explicit leftmost-match scanners: a matcher returns the
length of the regex match anchored at the head of the list, `none`
when the regex cannot match there.  Non-global `replace(p, '')`
removes the leftmost match only; global `replace(/p/g, '')` removes
every match, resuming after each removal, exactly as the JS engine
does for these patterns (none of them can match the empty string). -/

/-- JS whitespace: the character set removed by `String.prototype.trim`
and matched by the regex class `\s`. -/
def isJsWs (c : Char) : Bool :=
  c.toNat == 32 || c.toNat == 9 || c.toNat == 10 || c.toNat == 11 ||
  c.toNat == 12 || c.toNat == 13 || c.toNat == 160 || c.toNat == 0x1680 ||
  (decide (0x2000 ≤ c.toNat) && decide (c.toNat ≤ 0x200A)) ||
  c.toNat == 0x2028 || c.toNat == 0x2029 || c.toNat == 0x202F ||
  c.toNat == 0x205F || c.toNat == 0x3000 || c.toNat == 0xFEFF

/-- JS `String.prototype.trim`. -/
def jsTrimL (l : List Char) : List Char :=
  ((l.dropWhile isJsWs).reverse.dropWhile isJsWs).reverse

/-- Characters matched by the regex class `[\x00-\x1F\x7F]` (the
"null bytes and control characters" removal). -/
def isCtlChr (c : Char) : Bool :=
  decide (c.toNat ≤ 31) || c.toNat == 127

/-- Double-quote character (escaped here to keep source lines plain). -/
def qmChar : Char := Char.ofNat 34

/-- Single-quote character. -/
def apChar : Char := Char.ofNat 39

/-- Per-character HTML escaping: the five chained global `replace`
calls executed when `allowHtml` is false. -/
def escChar (c : Char) : List Char :=
  if c = '<' then "&lt;".toList
  else if c = '>' then "&gt;".toList
  else if c = qmChar then "&quot;".toList
  else if c = apChar then "&#x27;".toList
  else if c = '/' then "&#x2F;".toList
  else [c]

def escapeHtmlChars (l : List Char) : List Char := l.flatMap escChar

def isAsciiAlnum (c : Char) : Bool :=
  (decide (65 ≤ c.toNat) && decide (c.toNat ≤ 90)) ||
  (decide (97 ≤ c.toNat) && decide (c.toNat ≤ 122)) ||
  (decide (48 ≤ c.toNat) && decide (c.toNat ≤ 57))

/-- Characters kept by the `allowSpecialChars: false` removal
(`[^a-zA-Z0-9\s\-_@#.]` deleted). -/
def keepSpecial (c : Char) : Bool :=
  isAsciiAlnum c || isJsWs c || c == '-' || c == '_' || c == '@' ||
  c == '#' || c == '.'

/-- List-of-characters prefix test (pattern first). -/
def startsWithL : List Char → List Char → Bool
  | [], _ => true
  | _ :: _, [] => false
  | p :: ps, c :: cs => p == c && startsWithL ps cs

def lowerL (l : List Char) : List Char := l.map Char.toLower

/-- Non-global `replace(p, '')`: delete the leftmost match of the
regex whose anchored matcher is `f` (identity when there is none,
which also covers the `test` guard in the source). -/
def removeFirstAux (f : List Char → Option Nat) : List Char → List Char
  | [] => []
  | c :: rest =>
      match f (c :: rest) with
      | some n => (c :: rest).drop n
      | none => c :: removeFirstAux f rest

/-- Global `replace(p, '')`, fuelled for structural termination: the
fuel is instantiated with the list length, which always suffices
because every step consumes at least one character. -/
def removeAllAux (f : List Char → Option Nat) : Nat → List Char → List Char
  | 0, l => l
  | _ + 1, [] => []
  | fuel + 1, c :: rest =>
      match f (c :: rest) with
      | some n => removeAllAux f fuel (rest.drop (n - 1))
      | none => c :: removeAllAux f fuel rest

def removeAllMatches (f : List Char → Option Nat) (l : List Char) : List Char :=
  removeAllAux f l.length l

/-- Anchored matcher for the first SQL pattern
`('|(\-\-)|(;)|(\||\|)|(\*|\*))` — a single quote, a double dash, a
semicolon, a pipe or an asterisk, tried in that order. -/
def sqlTokenMatch (s : List Char) : Option Nat :=
  match s with
  | [] => none
  | c :: rest =>
      if c = apChar then some 1
      else if c = '-' then
        match rest with
        | c₂ :: _ => if c₂ = '-' then some 2 else none
        | [] => none
      else if c = ';' then some 1
      else if c = '|' then some 1
      else if c = '*' then some 1
      else none

/-- SQL keywords of the second pattern, in alternation order. -/
def sqlKeywords : List (List Char) :=
  ["union".toList, "select".toList, "insert".toList, "update".toList,
   "delete".toList, "drop".toList, "create".toList, "alter".toList,
   "exec".toList, "execute".toList]

/-- Anchored, case-insensitive matcher for the SQL keyword pattern. -/
def keywordMatch (s : List Char) : Option Nat :=
  (sqlKeywords.find? (fun t => startsWithL (lowerL t) (lowerL s))).map
    List.length

/-- First index at which `pat` matches case-insensitively. -/
def indexOfCI (pat : List Char) : List Char → Option Nat
  | [] => if pat.isEmpty then some 0 else none
  | c :: rest =>
      if startsWithL (lowerL pat) (lowerL (c :: rest)) then some 0
      else (indexOfCI pat rest).map (· + 1)

/-- Anchored matcher for `<script[^>]*>[\s\S]*?<\/script>` (flags gi):
literal `<script`, a maximal run of non-`>` characters, a `>`, then the
lazy body up to the earliest closing `</script>`. -/
def scriptTagMatch (s : List Char) : Option Nat :=
  if startsWithL (lowerL "<script".toList) (lowerL s) then
    let rest := s.drop 7
    let j := (rest.takeWhile (fun c => !(c == '>'))).length
    match (rest.drop j).head? with
    | some c =>
        if c = '>' then
          match indexOfCI "</script>".toList (rest.drop (j + 1)) with
          | some k => some (7 + j + 1 + k + 9)
          | none => none
        else none
    | none => none
  else none

/-- Anchored matcher for `javascript:` (flags gi). -/
def jsProtoMatch (s : List Char) : Option Nat :=
  if startsWithL (lowerL "javascript:".toList) (lowerL s) then some 11
  else none

def isWordChar (c : Char) : Bool := isAsciiAlnum c || c == '_'

/-- Anchored matcher for `on\w+\s*=` (flags gi).  The greedy `\w+` and
`\s*` need no backtracking: a shorter word run leaves a word character
where `=` must stand, and a shorter space run leaves a space there. -/
def onAttrMatch (s : List Char) : Option Nat :=
  match s with
  | c₁ :: c₂ :: rest =>
      if c₁.toLower == 'o' && c₂.toLower == 'n' then
        let w := (rest.takeWhile isWordChar).length
        if w = 0 then none
        else
          let sp := ((rest.drop w).takeWhile isJsWs).length
          match ((rest.drop w).drop sp).head? with
          | some e => if e = '=' then some (2 + w + sp + 1) else none
          | none => none
      else none
  | _ => none

structure SanitizeOptions where
  maxLength : Nat
  allowHtml : Bool
  allowSpecialChars : Bool
deriving DecidableEq

/-- Options record produced by a call site passing only `maxLength`
(`allowHtml` and `allowSpecialChars` keep their defaults `false` and
`true`). -/
def sanitizeOptsMaxLen (n : Nat) : SanitizeOptions := ⟨n, false, true⟩

/-- Body of `sanitizeInput` on a non-empty string: trim, truncate to
`maxLength`, HTML-escape unless `allowHtml`, strip the special-char
class unless `allowSpecialChars`, delete control characters, delete
the first match of each SQL pattern, delete all matches of each
script pattern. -/
def sanitizePipeline (opts : SanitizeOptions) (l : List Char) : List Char :=
  let s₁ := jsTrimL l
  let s₂ := s₁.take opts.maxLength
  let s₃ := if opts.allowHtml then s₂ else escapeHtmlChars s₂
  let s₄ := if opts.allowSpecialChars then s₃ else s₃.filter keepSpecial
  let s₅ := s₄.filter (fun c => !(isCtlChr c))
  let s₆ := removeFirstAux sqlTokenMatch s₅
  let s₇ := removeFirstAux keywordMatch s₆
  let s₈ := removeAllMatches scriptTagMatch s₇
  let s₉ := removeAllMatches jsProtoMatch s₈
  removeAllMatches onAttrMatch s₉

/-- `sanitizeInput(input, options)`: the empty string for any falsy or
non-string input (`none` models a non-string argument), otherwise the
sanitizing pipeline. -/
def sanitizeInput (input : Option String) (opts : SanitizeOptions) : String :=
  match input with
  | none => ""
  | some s => if s = "" then "" else ⟨sanitizePipeline opts s.toList⟩

/-! Connection-parameter handling (src/websocket/handler.js). -/

/-- Raw query parameters of an inbound WebSocket connection; `none`
models an absent query key. -/
structure RawParams where
  channel : Option String
  session : Option String
  conversation : Option String
  user : Option String
  language : Option String
  model : Option String

/-- Sanitized connection parameters. -/
structure Params where
  channel : String
  session : String
  conversation : String
  user : String
  language : String
  model : String
deriving DecidableEq

/-- `sanitizeConnectionParams`. -/
def sanitizeConnectionParams (p : RawParams) : Params where
  channel := sanitizeInput p.channel (sanitizeOptsMaxLen 100)
  session := sanitizeInput p.session (sanitizeOptsMaxLen 100)
  conversation := sanitizeInput p.conversation (sanitizeOptsMaxLen 100)
  user := sanitizeInput p.user (sanitizeOptsMaxLen 100)
  language := sanitizeInput p.language (sanitizeOptsMaxLen 10)
  model := sanitizeInput p.model (sanitizeOptsMaxLen 50)

def isChannelBodyChar (c : Char) : Bool :=
  isAsciiAlnum c || c == '_' || c == '-'

/-- The channel regex `^[#@]?[a-zA-Z0-9_-]+$`. -/
def matchChannelRe (s : String) : Bool :=
  match s.toList with
  | [] => false
  | c :: rest =>
      if c == '#' || c == '@' then
        !rest.isEmpty && rest.all isChannelBodyChar
      else (c :: rest).all isChannelBodyChar

def isLowerAZ (c : Char) : Bool :=
  decide (97 ≤ c.toNat) && decide (c.toNat ≤ 122)

def isUpperAZ (c : Char) : Bool :=
  decide (65 ≤ c.toNat) && decide (c.toNat ≤ 90)

/-- The language regex `^[a-z]{2}(-[A-Z]{2})?$`. -/
def matchLanguageRe (s : String) : Bool :=
  match s.toList with
  | [a, b] => isLowerAZ a && isLowerAZ b
  | [a, b, d, e, f] =>
      isLowerAZ a && isLowerAZ b && d == '-' && isUpperAZ e && isUpperAZ f
  | _ => false

/-- The enumerated model set of `validateConnectionParams`. -/
def validModels : List String := ["nova-2", "nova", "enhanced", "base"]

/-- Validation result shape `{isValid, errors}` shared by the
validators in this code base. -/
structure VResult where
  isValid : Bool
  errors : List String
deriving DecidableEq

/-- `validateConnectionParams`: required `channel` and `session`
(empty strings are falsy), then the three format rules, error
messages accumulated in source order. -/
def validateConnectionParams (p : Params) : VResult :=
  let errors :=
    (if p.channel = "" then ["channel parameter is required"] else []) ++
    (if p.session = "" then ["session parameter is required"] else []) ++
    (if p.channel ≠ "" ∧ matchChannelRe p.channel = false then
      ["invalid channel format"] else []) ++
    (if p.language ≠ "" ∧ matchLanguageRe p.language = false then
      ["invalid language format"] else []) ++
    (if p.model ≠ "" ∧ validModels.contains p.model = false then
      ["invalid model specified"] else [])
  ⟨errors.isEmpty, errors⟩

/-! Audio-stream validation (src/utils/validation.js,
`validateAudioStream`): the handler calls it with
`maxChunkSize: 8192, minChunkSize: 160` and the default
`allowEmpty: false`. -/

/-- Options of `validateAudioStream`. -/
structure AVOptions where
  maxChunkSize : Nat
  minChunkSize : Nat
  allowEmpty : Bool
deriving DecidableEq

/-- `validateAudioStream(chunk, options)` on a byte buffer (the
`Buffer.isBuffer` branch cannot fire here; the silence-ratio check
only logs and never adds an error). -/
def validateAudioStream (chunk : List Nat) (opts : AVOptions) : VResult :=
  if chunk.length = 0 ∧ opts.allowEmpty = false then
    ⟨false, ["Empty audio chunk"]⟩
  else
    let errors :=
      (if chunk.length > opts.maxChunkSize then
        ["Chunk too large: " ++ toString chunk.length ++ " bytes (max: " ++
          toString opts.maxChunkSize ++ ")"] else []) ++
      (if chunk.length < opts.minChunkSize ∧ chunk.length > 0 then
        ["Chunk too small: " ++ toString chunk.length ++ " bytes (min: " ++
          toString opts.minChunkSize ++ ")"] else [])
    ⟨errors.isEmpty, errors⟩

/-- The options the WebSocket handler passes to `validateAudioStream`. -/
def handlerAVOptions : AVOptions := ⟨8192, 160, false⟩

/-! Streaming-transcription handle (the object returned by
`DeepgramService.createStreamingConnection`): it closes over the raw
backend connection, of which only `readyState` is observed
(1 = OPEN; `close()` moves an opening or open stream to CLOSING and
leaves a closing or closed stream alone, and nothing ever moves a
stream back to OPEN). -/

structure DgHandle where
  readyState : Nat
deriving DecidableEq

/-- `Handle.isConnected()`: `connection.readyState === 1`. -/
def dgIsConnected (h : DgHandle) : Bool := h.readyState == 1

/-- `Handle.close()`: `connection.close()` on the underlying stream. -/
def dgClose (h : DgHandle) : DgHandle :=
  ⟨if h.readyState = 2 ∨ h.readyState = 3 then h.readyState else 2⟩

/-! Connection Gateway (src/websocket/handler.js). -/

/-- Per-connection state object created by `setupWebSocket`. -/
structure ConnState where
  id : String
  params : Params
  deepgramConnection : Option DgHandle
  isActive : Bool
  startTime : Nat
  audioChunks : Nat
  totalBytes : Nat
deriving DecidableEq

/-- Parsed control-message type of a JSON text frame. -/
inductive CtrlType
  | start
  | stop
  | config
  | unknown
deriving DecidableEq

/-- A WebSocket message: a JSON control message or a binary frame. -/
inductive WsMsg
  | text (t : CtrlType)
  | binary (data : List Nat)
deriving DecidableEq

/-- Observable actions of the handler. -/
inductive Effect
  | statusReply (status message : String)
  | errorReply (error : String)
  | forwardAudio (data : List Nat)
  | closeConn (code : Nat) (reason : String)
  | closeDg
  | warnLog (message : String)
  | infoLog (message : String)
  | debugLog (message : String)
deriving DecidableEq

/-- `Handle.sendAudio(frame)`: forwards only when
`connection.readyState === 1`. -/
def dgSendAudio (h : DgHandle) (data : List Nat) : List Effect :=
  if h.readyState = 1 then [Effect.forwardAudio data] else []

/-- `handleWebSocketMessage(connectionState, data)`: control messages
by `type`; binary frames validated for size, counted, and forwarded
only when the Deepgram handle exists and `isConnected()`. -/
def handleWebSocketMessage (cs : ConnState) (m : WsMsg) :
    ConnState × List Effect :=
  match m with
  | WsMsg.text CtrlType.start =>
      (cs, [Effect.infoLog ("Starting transcription for connection " ++ cs.id),
            Effect.statusReply "started" "Transcription started"])
  | WsMsg.text CtrlType.stop =>
      ({ cs with deepgramConnection := cs.deepgramConnection.map dgClose },
       [Effect.infoLog ("Stopping transcription for connection " ++ cs.id)] ++
       (match cs.deepgramConnection with
        | some _ => [Effect.closeDg]
        | none => []) ++
       [Effect.statusReply "stopped" "Transcription stopped"])
  | WsMsg.text CtrlType.config =>
      (cs, [Effect.debugLog ("Config update for connection " ++ cs.id)])
  | WsMsg.text CtrlType.unknown =>
      (cs, [Effect.warnLog "Unknown message type"])
  | WsMsg.binary data =>
      let v := validateAudioStream data handlerAVOptions
      if v.isValid = false then
        (cs, [Effect.warnLog ("Invalid audio data from " ++ cs.id)])
      else
        let cs' := { cs with
          audioChunks := cs.audioChunks + 1,
          totalBytes := cs.totalBytes + data.length }
        match cs.deepgramConnection with
        | some h =>
            if dgIsConnected h then (cs', dgSendAudio h data)
            else (cs', [Effect.warnLog ("Deepgram connection not ready for " ++ cs.id)])
        | none =>
            (cs', [Effect.warnLog ("Deepgram connection not ready for " ++ cs.id)])

/-- Sequential processing of a list of messages on one connection,
with their effects in order. -/
def processMessages (cs : ConnState) : List WsMsg → ConnState × List Effect
  | [] => (cs, [])
  | m :: ms =>
      let r := handleWebSocketMessage cs m
      let r₂ := processMessages r.1 ms
      (r₂.1, r.2 ++ r₂.2)

/-- Outcome of the connection-setup prologue of `setupWebSocket`
(parameter sanitization and validation, up to the registration of the
connection state): rejected connections are closed before any
registry mutation and never become active. -/
inductive SetupOutcome
  | rejected (code : Nat) (reason : String)
  | registered (cs : ConnState)
deriving DecidableEq

/-- Setup prologue for one inbound connection: sanitize the query
parameters, validate them, close with code 1008 on failure, otherwise
build the initial connection state (`isActive: true`, zero counters)
under the freshly generated connection id. -/
def acceptConnection (raw : RawParams) (connId : String) (now : Nat) :
    SetupOutcome :=
  let params := sanitizeConnectionParams raw
  let v := validateConnectionParams params
  if v.isValid = false then
    SetupOutcome.rejected 1008
      ("Invalid parameters: " ++ String.intercalate ", " v.errors)
  else
    SetupOutcome.registered
      ⟨connId, params, none, true, now, 0, 0⟩

/-- Registry effect of the setup prologue on the handler's
`activeStreams` map: a rejected connection leaves it untouched, a
registered one is inserted under its connection id. -/
def acceptRegistry (raw : RawParams) (connId : String) (now : Nat)
    (streams : Reg ConnState) : Reg ConnState :=
  match acceptConnection raw connId now with
  | SetupOutcome.rejected _ _ => streams
  | SetupOutcome.registered cs => mapSet connId cs streams

/-- `cleanup(connectionId, activeStreams)`: look the connection up;
when present, close its Deepgram connection, mark it inactive and
delete it from the map; a missing id is a no-op. -/
def cleanup (connId : String) (streams : Reg ConnState) :
    Reg ConnState × List Effect :=
  match mapLookup connId streams with
  | none => (streams, [])
  | some cs =>
      (mapErase connId streams,
       (match cs.deepgramConnection with
        | some _ => [Effect.closeDg]
        | none => []) ++
       [Effect.infoLog ("Cleaned up connection: " ++ connId)])

/-- The idle threshold of `cleanupInactiveConnections`: the literal
`30 * 60 * 1000` in the source. -/
def sweepMaxAgeMs : Nat := 30 * 60 * 1000

/-- The sweep interval: the literal `60000` passed to `setInterval`
in `setupWebSocket`. -/
def sweepIntervalMs : Nat := 60000

/-- Removal condition of the sweep: `!connectionState.isActive ||
age > maxAge`. -/
abbrev sweepCond (now : Nat) (e : String × ConnState) : Prop :=
  e.2.isActive = false ∨ now - e.2.startTime > sweepMaxAgeMs

/-- `cleanupInactiveConnections(activeStreams)`: iterate the entries
and run `cleanup` on every connection that is inactive or older than
the hardcoded threshold.  Neither the threshold nor the interval is
read from configuration. -/
def cleanupInactiveConnections (now : Nat) (streams : Reg ConnState) :
    Reg ConnState × List Effect :=
  streams.foldl
    (fun acc e =>
      if sweepCond now e then
        let r := cleanup e.1 acc.1
        (r.1,
         acc.2 ++ Effect.infoLog ("Cleaning up inactive connection: " ++ e.1)
           :: r.2)
      else acc)
    (streams, [])

/-- Whether some entry of `entries` both satisfies the sweep condition
and shares its key with `a` (helper for reasoning about the sweep's
iterated deletions). -/
def sweepHits (now : Nat) (entries : List (String × ConnState))
    (a : String × ConnState) : Bool :=
  entries.any (fun e => decide (sweepCond now e) && decide (e.1 = a.1))

/-- Sweep as the specification words it (spec §4.1: removes exactly
the sessions whose age exceeds `maxIdle`), for comparison with the
source's sweep.  Modelled from the spec, not from the code. -/
def sweepByAgeOnlySpec (now : Nat) (streams : Reg ConnState) :
    Reg ConnState :=
  streams.filter (fun e => !(decide (now - e.2.startTime > sweepMaxAgeMs)))

/-! Deepgram streaming service (deepgram-service.js). -/

/-- Entry stored in `DeepgramService.activeConnections` by
`createStreamingConnection`. -/
structure DgRegEntry where
  sessionId : String
  slackChannel : String
  conversationId : String
  createdAt : Nat
deriving DecidableEq

/-- Registry action of `createStreamingConnection`: an unconditional
`activeConnections.set(sessionId, {...})` — there is no duplicate
check and no failure path for an id that is already present — paired
with the handle object it returns (the underlying stream starts in
the CONNECTING state). -/
def createStreamingConnectionReg (sid slackChannel convId : String)
    (now : Nat) (reg : Reg DgRegEntry) : Reg DgRegEntry × DgHandle :=
  (mapSet sid ⟨sid, slackChannel, convId, now⟩ reg, ⟨0⟩)

/-- One alternative of a Deepgram transcript payload
(`data.channel.alternatives[i]`); word objects are carried opaquely. -/
structure DgAlt where
  transcript : String
  confidence : Nat
  words : List String
deriving DecidableEq

/-- A Deepgram `transcript` event payload.  A missing `data.channel`
or `data.channel.alternatives` (the optional chaining in the source)
is modelled by an empty alternatives list. -/
structure DgData where
  alternatives : List DgAlt
  is_final : Bool
  duration : Nat
  start : Nat
  channel_index : Nat
deriving DecidableEq

/-- The result object built by the `transcript` event handler. -/
structure TranscriptResult where
  sessionId : String
  conversationId : String
  transcript : String
  confidence : Nat
  isFinal : Bool
  duration : Nat
  start : Nat
  channel : Nat
  words : List String
  timestamp : String
deriving DecidableEq

/-- Options a streaming connection was opened with, as captured by
the `transcript` event handler's closure. -/
structure StreamOpts where
  sessionId : String
  slackChannel : String
  conversationId : String
  hasOnTranscript : Bool
deriving DecidableEq

/-- Observable actions of the Deepgram-side event handling. -/
inductive DgEffect
  | callOnTranscript (r : TranscriptResult)
  | wsSendTranscript (r : TranscriptResult)
  | slackPost (channel text : String)
  | errLog (message : String)
  | dbgLog (message : String)
deriving DecidableEq

def jsTrimStr (s : String) : String := ⟨jsTrimL s.toList⟩

/-- `DeepgramService.sendToSlack(data)`: build the message and attempt
`slackService.sendMessage`; a failure is caught and logged, never
rethrown (`slackFails` models whether that attempt fails). -/
def sendToSlack (slackFails : Bool) (channel transcript : String) :
    List DgEffect :=
  let text := "🎤 *Live Transcription*\n" ++ transcript
  if slackFails then
    [DgEffect.slackPost channel text,
     DgEffect.errLog "Failed to send transcription to Slack:"]
  else [DgEffect.slackPost channel text]

/-- The `connection.on('transcript', ...)` handler: take the first
alternative, drop the event when its transcript text is falsy (absent
or empty), otherwise build the result, invoke `onTranscript` when one
was registered (whose body in the gateway sends the transcript to the
client when the socket is open), then send to Slack when the result
is final, a channel is configured and the trimmed text is non-empty. -/
def onTranscriptEvent (opts : StreamOpts) (d : DgData)
    (wsOpen slackFails : Bool) (now : String) : List DgEffect :=
  match d.alternatives.head? with
  | none => []
  | some alt =>
      if alt.transcript = "" then []
      else
        let result : TranscriptResult :=
          ⟨opts.sessionId, opts.conversationId, alt.transcript,
           alt.confidence, d.is_final, d.duration, d.start,
           d.channel_index, alt.words, now⟩
        (if opts.hasOnTranscript then
          DgEffect.callOnTranscript result ::
            (if wsOpen then [DgEffect.wsSendTranscript result] else [])
         else []) ++
        (if d.is_final = true ∧ opts.slackChannel ≠ "" ∧
            jsTrimStr alt.transcript ≠ "" then
          sendToSlack slackFails opts.slackChannel alt.transcript
         else []) ++
        [DgEffect.dbgLog ("Transcript received: " ++ alt.transcript)]

/-- Client-facing effects (the deliveries the dispatcher contract
requires to be unaffected by a notification failure). -/
def isClientEffect : DgEffect → Bool
  | DgEffect.callOnTranscript _ => true
  | DgEffect.wsSendTranscript _ => true
  | _ => false

/-- A connection whose Deepgram handle, if any, is not open. -/
def dgNotConnected (cs : ConnState) : Prop :=
  ∀ h, cs.deepgramConnection = some h → dgIsConnected h = false

/-- The six string fields of a sanitized parameter set. -/
def paramFields (p : Params) : List String :=
  [p.channel, p.session, p.conversation, p.user, p.language, p.model]

theorem mapLookup_set_self {α : Type} (k : String) (v : α) (r : Reg α) :
    mapLookup k (mapSet k v r) = some v := by
  induction r with
  | nil => simp [mapSet, mapLookup]
  | cons e rest ih =>
      obtain ⟨k₂, v₂⟩ := e
      by_cases h : k₂ = k
      · simp [mapSet, mapLookup, h]
      · simp [mapSet, mapLookup, h, ih]

theorem mapLookup_set_ne {α : Type} (k j : String) (v : α) (r : Reg α)
    (h : j ≠ k) : mapLookup j (mapSet k v r) = mapLookup j r := by
  induction r with
  | nil => simp [mapSet, mapLookup, Ne.symm h]
  | cons e rest ih =>
      obtain ⟨k₂, v₂⟩ := e
      by_cases hk : k₂ = k
      · subst hk
        simp [mapSet, mapLookup, Ne.symm h]
      · simp [mapSet, mapLookup, hk, ih]

theorem mapSet_keys {α : Type} (k : String) (v : α) (r : Reg α)
    (h : mapLookup k r = none) :
    (mapSet k v r).map Prod.fst = r.map Prod.fst ++ [k] := by
  induction r with
  | nil => simp [mapSet]
  | cons e rest ih =>
      obtain ⟨k₂, v₂⟩ := e
      by_cases hk : k₂ = k
      · simp [mapLookup, hk] at h
      · simp [mapLookup, hk] at h
        simp [mapSet, hk, ih h]

theorem mapSet_keys_mem {α : Type} (k : String) (v : α) (r : Reg α)
    (h : mapLookup k r ≠ none) :
    (mapSet k v r).map Prod.fst = r.map Prod.fst := by
  induction r with
  | nil => simp [mapLookup] at h
  | cons e rest ih =>
      obtain ⟨k₂, v₂⟩ := e
      by_cases hk : k₂ = k
      · subst hk; simp [mapSet]
      · simp [mapLookup, hk] at h
        simp [mapSet, hk, ih h]

theorem mem_keys_lookup {α : Type} (k : String) (r : Reg α)
    (h : k ∈ r.map Prod.fst) : mapLookup k r ≠ none := by
  induction r with
  | nil => simp at h
  | cons e rest ih =>
      obtain ⟨k₂, v₂⟩ := e
      by_cases hk : k₂ = k
      · simp [mapLookup, hk]
      · simp [mapLookup, hk]
        simp [Ne.symm hk] at h
        exact ih (by simpa using h)

theorem keysUnique_set {α : Type} (k : String) (v : α) (r : Reg α)
    (h : keysUnique r) : keysUnique (mapSet k v r) := by
  unfold keysUnique at h ⊢
  by_cases hl : mapLookup k r = none
  · rw [mapSet_keys k v r hl]
    refine List.Nodup.append h (List.nodup_singleton k) ?_
    intro a ha hb
    simp at hb
    subst hb
    exact mem_keys_lookup a r ha hl
  · rw [mapSet_keys_mem k v r hl]; exact h

theorem mapLookup_erase_self {α : Type} (k : String) (r : Reg α) :
    mapLookup k (mapErase k r) = none := by
  induction r with
  | nil => simp [mapErase, mapLookup, List.filter]
  | cons e rest ih =>
      obtain ⟨k₂, v₂⟩ := e
      by_cases hk : k₂ = k
      · simpa [mapErase, List.filter, hk] using ih
      · simpa [mapErase, List.filter, hk, mapLookup] using ih

theorem mapErase_of_absent {α : Type} (k : String) (r : Reg α)
    (h : mapLookup k r = none) : mapErase k r = r := by
  induction r with
  | nil => simp [mapErase]
  | cons e rest ih =>
      obtain ⟨k₂, v₂⟩ := e
      by_cases hk : k₂ = k
      · simp [mapLookup, hk] at h
      · simp [mapLookup, hk] at h
        have h₂ := ih h
        unfold mapErase at h₂
        simp [mapErase, List.filter, hk, h₂]

/-! Helper lemmas about the audio-size validator and the handler. -/

theorem validateAudioStream_valid_iff (data : List Nat) :
    (validateAudioStream data handlerAVOptions).isValid = true ↔
      160 ≤ data.length ∧ data.length ≤ 8192 := by
  unfold validateAudioStream handlerAVOptions
  by_cases h0 : data.length = 0
  · simp [h0]
  · by_cases h1 : data.length > 8192
    · simp [h0, h1]
    · by_cases h2 : data.length < 160
      · simp [h0, h1, h2, Nat.pos_of_ne_zero h0]
      · simp [h0, h1, h2]
        omega

/-- C2: for every binary frame on an Active connection (one holding a
Deepgram handle), a frame whose length lies in the inclusive bounds
160..8192 is forwarded to the streaming client iff `isConnected()`
holds at the time of the call; a frame outside the bounds is never
forwarded, triggers no error message to the client, and never closes
the connection. -/
theorem frame_forwarding_iff_connected (cs : ConnState) (data : List Nat) :
    (∀ h, cs.deepgramConnection = some h →
      160 ≤ data.length → data.length ≤ 8192 →
      (Effect.forwardAudio data ∈
          (handleWebSocketMessage cs (WsMsg.binary data)).2 ↔
        dgIsConnected h = true)) ∧
    (data.length < 160 ∨ 8192 < data.length →
      (∀ d, Effect.forwardAudio d ∉
        (handleWebSocketMessage cs (WsMsg.binary data)).2) ∧
      (∀ e, Effect.errorReply e ∉
        (handleWebSocketMessage cs (WsMsg.binary data)).2) ∧
      (∀ c rs, Effect.closeConn c rs ∉
        (handleWebSocketMessage cs (WsMsg.binary data)).2)) := by
  constructor
  · intro h hh hmin hmax
    have hv : (validateAudioStream data handlerAVOptions).isValid = true :=
      (validateAudioStream_valid_iff data).mpr ⟨hmin, hmax⟩
    by_cases hc : dgIsConnected h = true
    · simp [handleWebSocketMessage, hv, hh, dgSendAudio, dgIsConnected] at hc ⊢
      simp [hc]
    · simp [handleWebSocketMessage, hv, hh, dgSendAudio, dgIsConnected] at hc ⊢
      simp [hc]
  · intro hout
    have hv : (validateAudioStream data handlerAVOptions).isValid = false := by
      rcases Bool.eq_false_or_eq_true
        (validateAudioStream data handlerAVOptions).isValid with h | h
      · rcases (validateAudioStream_valid_iff data).mp h with ⟨h1, h2⟩
        omega
      · exact h
    refine ⟨?_, ?_, ?_⟩ <;> intro a <;>
      simp [handleWebSocketMessage, hv]

set_option maxRecDepth 8000 in
/-- C2 witness: a 160-byte frame on a connection with an open handle
is forwarded; a 50-byte frame is never forwarded. -/
theorem frame_forwarding_iff_connected_witness :
    Effect.forwardAudio (List.replicate 160 0) ∈
      (handleWebSocketMessage
        ⟨"c1", ⟨"#t", "s1", "", "", "", ""⟩, some ⟨1⟩, true, 0, 0, 0⟩
        (WsMsg.binary (List.replicate 160 0))).2 ∧
    (∀ d, Effect.forwardAudio d ∉
      (handleWebSocketMessage
        ⟨"c1", ⟨"#t", "s1", "", "", "", ""⟩, some ⟨1⟩, true, 0, 0, 0⟩
        (WsMsg.binary (List.replicate 50 0))).2) :=
  ⟨((frame_forwarding_iff_connected _ _).1 ⟨1⟩ rfl (by simp)
      (by simp)).mpr rfl,
   fun d => ((frame_forwarding_iff_connected _ (List.replicate 50 0)).2
      (by simp)).1 d⟩

/-- C10: a frame that passes size validation increments `audioChunks`
by one and `totalBytes` by the frame length and changes nothing else,
whether or not the Deepgram handle is connected; a frame that fails
size validation leaves the connection state entirely unchanged. -/
theorem frame_counter_effect (cs : ConnState) (data : List Nat) :
    ((validateAudioStream data handlerAVOptions).isValid = true →
      ((handleWebSocketMessage cs (WsMsg.binary data)).1.audioChunks =
          cs.audioChunks + 1 ∧
       (handleWebSocketMessage cs (WsMsg.binary data)).1.totalBytes =
          cs.totalBytes + data.length ∧
       (handleWebSocketMessage cs (WsMsg.binary data)).1.id = cs.id ∧
       (handleWebSocketMessage cs (WsMsg.binary data)).1.params = cs.params ∧
       (handleWebSocketMessage cs (WsMsg.binary data)).1.deepgramConnection =
          cs.deepgramConnection ∧
       (handleWebSocketMessage cs (WsMsg.binary data)).1.isActive =
          cs.isActive ∧
       (handleWebSocketMessage cs (WsMsg.binary data)).1.startTime =
          cs.startTime)) ∧
    ((validateAudioStream data handlerAVOptions).isValid = false →
      (handleWebSocketMessage cs (WsMsg.binary data)).1 = cs) := by
  constructor
  · intro hv
    rcases hd : cs.deepgramConnection with _ | h
    · simp [handleWebSocketMessage, hv, hd]
    · by_cases hc : dgIsConnected h = true <;>
        simp [handleWebSocketMessage, hv, hd, hc, dgSendAudio]
  · intro hv
    simp [handleWebSocketMessage, hv]

set_option maxRecDepth 8000 in
/-- C10 witness: a valid 200-byte frame on a closed handle still
counts; an undersized 10-byte frame changes nothing. -/
theorem frame_counter_effect_witness :
    ((handleWebSocketMessage
        ⟨"c1", ⟨"#t", "s1", "", "", "", ""⟩, some ⟨3⟩, true, 0, 4, 100⟩
        (WsMsg.binary (List.replicate 200 7))).1.audioChunks = 4 + 1 ∧
     (handleWebSocketMessage
        ⟨"c1", ⟨"#t", "s1", "", "", "", ""⟩, some ⟨3⟩, true, 0, 4, 100⟩
        (WsMsg.binary (List.replicate 200 7))).1.totalBytes =
          100 + (List.replicate 200 7).length) ∧
    (handleWebSocketMessage
        ⟨"c1", ⟨"#t", "s1", "", "", "", ""⟩, some ⟨3⟩, true, 0, 4, 100⟩
        (WsMsg.binary (List.replicate 10 7))).1 =
      ⟨"c1", ⟨"#t", "s1", "", "", "", ""⟩, some ⟨3⟩, true, 0, 4, 100⟩ :=
  ⟨⟨((frame_counter_effect _ _).1
        ((validateAudioStream_valid_iff _).mpr (by simp))).1,
    ((frame_counter_effect _ _).1
        ((validateAudioStream_valid_iff _).mpr (by simp))).2.1⟩,
   (frame_counter_effect _ _).2 (by
      rcases Bool.eq_false_or_eq_true
        (validateAudioStream (List.replicate 10 7) handlerAVOptions).isValid
        with h | h
      · rcases (validateAudioStream_valid_iff _).mp h with ⟨h1, h2⟩
        simp at h1
      · exact h)⟩
theorem handleMsg_preserves_notConnected (cs : ConnState) (m : WsMsg)
    (h : dgNotConnected cs) :
    dgNotConnected (handleWebSocketMessage cs m).1 ∧
    ∀ d, Effect.forwardAudio d ∉ (handleWebSocketMessage cs m).2 := by
  match m with
  | WsMsg.text CtrlType.start =>
      exact ⟨h, by intro d; simp [handleWebSocketMessage]⟩
  | WsMsg.text CtrlType.config =>
      exact ⟨h, by intro d; simp [handleWebSocketMessage]⟩
  | WsMsg.text CtrlType.unknown =>
      exact ⟨h, by intro d; simp [handleWebSocketMessage]⟩
  | WsMsg.text CtrlType.stop =>
      constructor
      · intro h₂ hh
        simp [handleWebSocketMessage] at hh
        rcases hd : cs.deepgramConnection with _ | h₀
        · simp [hd] at hh
        · simp [hd] at hh
          subst hh
          simp [dgIsConnected, dgClose]
          by_cases h23 : h₀.readyState = 2 ∨ h₀.readyState = 3
          · simp [h23]
            omega
          · simp [h23]
      · intro d
        rcases hd : cs.deepgramConnection with _ | h₀ <;>
          simp [handleWebSocketMessage, hd]
  | WsMsg.binary data =>
      by_cases hv : (validateAudioStream data handlerAVOptions).isValid = false
      · refine ⟨?_, by intro d; simp [handleWebSocketMessage, hv]⟩
        intro h₂ hh₂
        simp [handleWebSocketMessage, hv] at hh₂
        exact h h₂ hh₂
      · simp at hv
        rcases hd : cs.deepgramConnection with _ | h₀
        · refine ⟨?_, by intro d; simp [handleWebSocketMessage, hv, hd]⟩
          intro h₂ hh₂
          simp [handleWebSocketMessage, hv, hd] at hh₂
        · have hc : dgIsConnected h₀ = false := h h₀ hd
          refine ⟨?_, by intro d; simp [handleWebSocketMessage, hv, hd, hc]⟩
          intro h₂ hh₂
          simp [handleWebSocketMessage, hv, hd, hc] at hh₂
          subst hh₂
          exact hc

theorem processMessages_no_forward (ms : List WsMsg) (cs : ConnState)
    (h : dgNotConnected cs) :
    dgNotConnected (processMessages cs ms).1 ∧
    ∀ d, Effect.forwardAudio d ∉ (processMessages cs ms).2 := by
  induction ms generalizing cs with
  | nil => exact ⟨h, by intro d; simp [processMessages]⟩
  | cons m ms ih =>
      have h₁ := handleMsg_preserves_notConnected cs m h
      have h₂ := ih (handleWebSocketMessage cs m).1 h₁.1
      refine ⟨h₂.1, ?_⟩
      intro d
      simp [processMessages]
      exact ⟨h₁.2 d, h₂.2 d⟩

/-- C4: processing a `stop` on an Active connection closes the
Deepgram client and replies `status: stopped` without closing the
WebSocket, and afterwards no audio frame, in any later message
sequence on that connection, is ever forwarded to the client. -/
theorem stop_closes_and_blocks_audio (cs : ConnState) (h : DgHandle)
    (hh : cs.deepgramConnection = some h) :
    Effect.statusReply "stopped" "Transcription stopped" ∈
      (handleWebSocketMessage cs (WsMsg.text CtrlType.stop)).2 ∧
    Effect.closeDg ∈ (handleWebSocketMessage cs (WsMsg.text CtrlType.stop)).2 ∧
    (∀ c rs, Effect.closeConn c rs ∉
      (handleWebSocketMessage cs (WsMsg.text CtrlType.stop)).2) ∧
    (∀ h₂, (handleWebSocketMessage cs (WsMsg.text CtrlType.stop)).1.deepgramConnection =
        some h₂ → dgIsConnected h₂ = false) ∧
    (∀ ms d, Effect.forwardAudio d ∉
      (processMessages (handleWebSocketMessage cs (WsMsg.text CtrlType.stop)).1 ms).2) := by
  have hstep := handleMsg_preserves_notConnected cs (WsMsg.text CtrlType.stop)
  refine ⟨?_, ?_, ?_, ?_, ?_⟩
  · simp [handleWebSocketMessage, hh]
  · simp [handleWebSocketMessage, hh]
  · intro c rs; simp [handleWebSocketMessage, hh]
  · intro h₂ hh₂
    simp [handleWebSocketMessage, hh] at hh₂
    subst hh₂
    simp [dgIsConnected, dgClose]
    by_cases h23 : h.readyState = 2 ∨ h.readyState = 3
    · simp [h23]; omega
    · simp [h23]
  · intro ms d
    have hnc : dgNotConnected (handleWebSocketMessage cs (WsMsg.text CtrlType.stop)).1 := by
      intro h₂ hh₂
      simp [handleWebSocketMessage, hh] at hh₂
      subst hh₂
      simp [dgIsConnected, dgClose]
      by_cases h23 : h.readyState = 2 ∨ h.readyState = 3
      · simp [h23]; omega
      · simp [h23]
    exact (processMessages_no_forward ms _ hnc).2 d

/-- C4 witness: on a connection with an open handle, `stop` replies
`stopped`, and a subsequent valid 200-byte frame is not forwarded. -/
theorem stop_closes_and_blocks_audio_witness :
    Effect.statusReply "stopped" "Transcription stopped" ∈
      (handleWebSocketMessage
        ⟨"c1", ⟨"#t", "s1", "", "", "", ""⟩, some ⟨1⟩, true, 0, 0, 0⟩
        (WsMsg.text CtrlType.stop)).2 ∧
    (∀ d, Effect.forwardAudio d ∉
      (processMessages
        (handleWebSocketMessage
          ⟨"c1", ⟨"#t", "s1", "", "", "", ""⟩, some ⟨1⟩, true, 0, 0, 0⟩
          (WsMsg.text CtrlType.stop)).1
        [WsMsg.binary (List.replicate 200 7)]).2) :=
  ⟨(stop_closes_and_blocks_audio _ ⟨1⟩ rfl).1,
   fun d => (stop_closes_and_blocks_audio _ ⟨1⟩ rfl).2.2.2.2
     [WsMsg.binary (List.replicate 200 7)] d⟩
theorem cleanup_fst_eq_erase (connId : String) (streams : Reg ConnState) :
    (cleanup connId streams).1 = mapErase connId streams := by
  unfold cleanup
  rcases hl : mapLookup connId streams with _ | cs
  · simp [hl, mapErase_of_absent connId streams hl]
  · simp [hl]

theorem cleanup_of_absent (connId : String) (streams : Reg ConnState)
    (hl : mapLookup connId streams = none) :
    cleanup connId streams = (streams, []) := by
  unfold cleanup
  simp [hl]

/-- C8: removal and close are idempotent — `cleanup` on an id that is
not registered returns the map unchanged with no effects, running
`cleanup` twice for the same id equals running it once (the second
run is a silent no-op), and closing an already-closed Deepgram handle
leaves it unchanged. -/
theorem cleanup_idempotent (connId : String) (streams : Reg ConnState) :
    (mapLookup connId streams = none →
      cleanup connId streams = (streams, [])) ∧
    cleanup connId (cleanup connId streams).1 =
      ((cleanup connId streams).1, []) ∧
    (∀ h : DgHandle, dgClose (dgClose h) = dgClose h) := by
  refine ⟨?_, ?_, ?_⟩
  · exact cleanup_of_absent connId streams
  · refine cleanup_of_absent connId _ ?_
    rw [cleanup_fst_eq_erase]
    exact mapLookup_erase_self connId streams
  · intro h
    unfold dgClose
    by_cases h23 : h.readyState = 2 ∨ h.readyState = 3
    · simp [h23]
    · simp [h23]

/-- C8 witness: cleaning a missing id "z" is a no-op, and a second
cleanup of "c1" after the first is a no-op. -/
theorem cleanup_idempotent_witness :
    cleanup "z"
      [("c1", ⟨"c1", ⟨"#t", "s1", "", "", "", ""⟩, some ⟨1⟩, true, 0, 0, 0⟩)] =
      ([("c1", ⟨"c1", ⟨"#t", "s1", "", "", "", ""⟩, some ⟨1⟩, true, 0, 0, 0⟩)], []) ∧
    cleanup "c1"
      (cleanup "c1"
        [("c1", ⟨"c1", ⟨"#t", "s1", "", "", "", ""⟩, some ⟨1⟩, true, 0, 0, 0⟩)]).1 =
      ((cleanup "c1"
        [("c1", ⟨"c1", ⟨"#t", "s1", "", "", "", ""⟩, some ⟨1⟩, true, 0, 0, 0⟩)]).1, []) :=
  ⟨(cleanup_idempotent "z" _).1 (by decide),
   (cleanup_idempotent "c1" _).2.1⟩

/-- C1 counterexample: with session "s1" already active in the
Deepgram registry, a second `createStreamingConnection` for "s1" does
not fail — the model has no failure outcome and no duplicate check —
and it replaces the original entry, which is therefore affected. -/
theorem create_duplicate_counterexample :
    (createStreamingConnectionReg "s1" "#b" "" 5
        [("s1", ⟨"s1", "#a", "", 0⟩)]).1 =
      [("s1", ⟨"s1", "#b", "", 5⟩)] ∧
    mapLookup "s1" [("s1", (⟨"s1", "#a", "", 0⟩ : DgRegEntry))] =
      some ⟨"s1", "#a", "", 0⟩ ∧
    (⟨"s1", "#b", "", 5⟩ : DgRegEntry) ≠ ⟨"s1", "#a", "", 0⟩ := by
  refine ⟨?_, ?_, ?_⟩ <;> decide

/-- C1 amended: creating a streaming connection never fails on a
duplicate session id; the `Map.set` replaces the existing entry
(last write wins), leaves every other session untouched, and keeps
the registry invariant that each session id has at most one entry. -/
theorem create_overwrites_amended (sid ch cv : String) (now : Nat)
    (reg : Reg DgRegEntry) :
    mapLookup sid (createStreamingConnectionReg sid ch cv now reg).1 =
      some ⟨sid, ch, cv, now⟩ ∧
    (∀ k, k ≠ sid →
      mapLookup k (createStreamingConnectionReg sid ch cv now reg).1 =
        mapLookup k reg) ∧
    (keysUnique reg →
      keysUnique (createStreamingConnectionReg sid ch cv now reg).1) := by
  refine ⟨?_, ?_, ?_⟩
  · exact mapLookup_set_self sid _ reg
  · intro k hk
    exact mapLookup_set_ne sid k _ reg hk
  · intro hU
    exact keysUnique_set sid _ reg hU

/-- C1 amended witness: overwriting "s1" in a one-entry registry. -/
theorem create_overwrites_amended_witness :
    mapLookup "s1"
      (createStreamingConnectionReg "s1" "#b" "" 5
        [("s1", ⟨"s1", "#a", "", 0⟩)]).1 = some ⟨"s1", "#b", "", 5⟩ ∧
    keysUnique
      (createStreamingConnectionReg "s1" "#b" "" 5
        [("s1", (⟨"s1", "#a", "", 0⟩ : DgRegEntry))]).1 :=
  ⟨(create_overwrites_amended "s1" "#b" "" 5 _).1,
   (create_overwrites_amended "s1" "#b" "" 5 _).2.2 (by simp [keysUnique])⟩
theorem validateConnectionParams_errors_nonempty (p : Params)
    (h : (validateConnectionParams p).isValid = false) :
    (validateConnectionParams p).errors ≠ [] := by
  intro he
  unfold validateConnectionParams at h he
  simp at h he
  obtain ⟨h1, h2, h3, h4, h5⟩ := he
  exact (h h1 h2 h3 h4).2 (h5 (h h1 h2 h3 h4).1)

/-- C3: every inbound connection whose sanitized parameters fail
validation is closed immediately with the policy-violation code 1008
and a human-readable reason (the non-empty validation errors joined
after an explanatory prefix), no entry is added to the stream
registry, and the connection never reaches the registered (Active)
state. -/
theorem invalid_params_rejected (raw : RawParams) (connId : String)
    (now : Nat) (streams : Reg ConnState)
    (hv : (validateConnectionParams (sanitizeConnectionParams raw)).isValid =
      false) :
    acceptConnection raw connId now =
      SetupOutcome.rejected 1008
        ("Invalid parameters: " ++ String.intercalate ", "
          (validateConnectionParams (sanitizeConnectionParams raw)).errors) ∧
    (validateConnectionParams (sanitizeConnectionParams raw)).errors ≠ [] ∧
    acceptRegistry raw connId now streams = streams ∧
    (∀ cs, acceptConnection raw connId now ≠ SetupOutcome.registered cs) := by
  have ha : acceptConnection raw connId now =
      SetupOutcome.rejected 1008
        ("Invalid parameters: " ++ String.intercalate ", "
          (validateConnectionParams (sanitizeConnectionParams raw)).errors) := by
    unfold acceptConnection
    simp [hv]
  refine ⟨ha, validateConnectionParams_errors_nonempty _ hv, ?_, ?_⟩
  · unfold acceptRegistry
    rw [ha]
  · intro cs hcs
    rw [ha] at hcs
    exact SetupOutcome.noConfusion hcs

/-- C3 witness: a connection with every query parameter absent (in
particular `session`) is rejected with code 1008 and creates no
registry entry. -/
theorem invalid_params_rejected_witness :
    (validateConnectionParams
      (sanitizeConnectionParams ⟨none, none, none, none, none, none⟩)).isValid =
        false ∧
    acceptRegistry ⟨none, none, none, none, none, none⟩ "c1" 0 [] = [] ∧
    (∀ cs, acceptConnection ⟨none, none, none, none, none, none⟩ "c1" 0 ≠
      SetupOutcome.registered cs) :=
  ⟨by decide,
   (invalid_params_rejected ⟨none, none, none, none, none, none⟩ "c1" 0 []
      (by decide)).2.2.1,
   (invalid_params_rejected ⟨none, none, none, none, none, none⟩ "c1" 0 []
      (by decide)).2.2.2⟩
theorem sweepHits_cons (now : Nat) (e : String × ConnState)
    (es : List (String × ConnState)) (a : String × ConnState) :
    sweepHits now (e :: es) a =
      ((decide (sweepCond now e) && decide (e.1 = a.1)) ||
        sweepHits now es a) := by
  simp [sweepHits]

theorem sweepFold_fst (now : Nat) (entries : List (String × ConnState)) :
    ∀ acc : Reg ConnState × List Effect,
    (entries.foldl
      (fun acc e =>
        if sweepCond now e then
          let r := cleanup e.1 acc.1
          (r.1,
           acc.2 ++ Effect.infoLog ("Cleaning up inactive connection: " ++ e.1)
             :: r.2)
        else acc)
      acc).1 =
    entries.foldl
      (fun a e => if sweepCond now e then mapErase e.1 a else a) acc.1 := by
  induction entries with
  | nil => intro acc; rfl
  | cons e es ih =>
      intro acc
      by_cases hc : sweepCond now e
      · simp only [List.foldl_cons, if_pos hc]
        rw [ih]
        rw [cleanup_fst_eq_erase]
      · simp only [List.foldl_cons, if_neg hc]
        exact ih acc

theorem sweepErase_eq_filter (now : Nat) (entries : List (String × ConnState)) :
    ∀ acc : Reg ConnState,
    entries.foldl
      (fun a e => if sweepCond now e then mapErase e.1 a else a) acc =
    acc.filter (fun a => !(sweepHits now entries a)) := by
  induction entries with
  | nil =>
      intro acc
      simp [sweepHits]
  | cons e es ih =>
      intro acc
      by_cases hc : sweepCond now e
      · simp only [List.foldl_cons, if_pos hc]
        rw [ih]
        unfold mapErase
        rw [List.filter_filter]
        have hp : (fun a : String × ConnState =>
            !(sweepHits now es a) && !(a.1 = e.1 : Bool)) =
            (fun a => !(sweepHits now (e :: es) a)) := by
          funext a
          rw [sweepHits_cons]
          by_cases h1 : e.1 = a.1
          · by_cases h2 : sweepHits now es a = true
            · simp [hc, h1, h2]
            · simp [hc, h1, h2]
          · have h1' : ¬a.1 = e.1 := fun hh => h1 hh.symm
            by_cases h2 : sweepHits now es a = true
            · simp [hc, h1, h1', h2]
            · simp [hc, h1, h1', h2]
        rw [hp]
      · simp only [List.foldl_cons, if_neg hc]
        rw [ih]
        have hp : (fun a : String × ConnState => !(sweepHits now es a)) =
            (fun a => !(sweepHits now (e :: es) a)) := by
          funext a
          rw [sweepHits_cons]
          simp [hc]
        rw [hp]

theorem keysUnique_entry_eq {α : Type} :
    ∀ l : Reg α, keysUnique l →
    ∀ a b : String × α, a ∈ l → b ∈ l → a.1 = b.1 → a = b := by
  intro l
  induction l with
  | nil => intro _ a b ha; cases ha
  | cons e es ih =>
      intro hU a b ha hb hk
      have hU' : e.1 ∉ es.map Prod.fst ∧ keysUnique es := by
        unfold keysUnique at hU
        simp only [List.map_cons, List.nodup_cons] at hU
        exact hU
      rcases List.mem_cons.mp ha with ha1 | ha2 <;>
        rcases List.mem_cons.mp hb with hb1 | hb2
      · rw [ha1, hb1]
      · exfalso
        apply hU'.1
        have hke : e.1 = b.1 := by rw [← ha1]; exact hk
        rw [hke]
        exact List.mem_map.mpr ⟨b, hb2, rfl⟩
      · exfalso
        apply hU'.1
        have hke : e.1 = a.1 := by rw [← hb1]; exact hk.symm
        rw [hke]
        exact List.mem_map.mpr ⟨a, ha2, rfl⟩
      · exact ih hU'.2 a b ha2 hb2 hk

theorem sweepHits_unique (now : Nat) (streams : Reg ConnState)
    (hU : keysUnique streams) (a : String × ConnState) (hmem : a ∈ streams) :
    (!(sweepHits now streams a)) =
      (a.2.isActive && !(decide (now - a.2.startTime > sweepMaxAgeMs))) := by
  have hiff : sweepHits now streams a = true ↔ sweepCond now a := by
    unfold sweepHits
    rw [List.any_eq_true]
    constructor
    · rintro ⟨e, he, hpe⟩
      rw [Bool.and_eq_true, decide_eq_true_eq, decide_eq_true_eq] at hpe
      have heq : e = a :=
        keysUnique_entry_eq streams hU e a he hmem hpe.2
      exact heq ▸ hpe.1
    · intro hca
      refine ⟨a, hmem, ?_⟩
      rw [Bool.and_eq_true, decide_eq_true_eq, decide_eq_true_eq]
      exact ⟨hca, rfl⟩
  by_cases hca : sweepCond now a
  · rw [hiff.mpr hca]
    rcases hca with hIA | hAge
    · simp [hIA]
    · simp [hAge]
  · have h1 : sweepHits now streams a = false := by
      rcases Bool.eq_false_or_eq_true (sweepHits now streams a) with hh | hh
      · exact (hca (hiff.mp hh)).elim
      · exact hh
    rw [h1]
    unfold sweepCond at hca
    push_neg at hca
    obtain ⟨hIA, hAge⟩ := hca
    cases hb : a.2.isActive with
    | false => exact (hIA hb).elim
    | true => simp [hb, hAge]

/-- C7 counterexample: the sweep does not remove exactly the sessions
whose age exceeds the threshold — a registered session of age 0 that
is marked inactive is removed by `cleanupInactiveConnections` although
the spec-modelled age-only sweep keeps it and its age does not exceed
the threshold. -/
theorem sweep_counterexample :
    (cleanupInactiveConnections 0
      [("c1", ⟨"c1", ⟨"#t", "s1", "", "", "", ""⟩, none, false, 0, 0, 0⟩)]).1 =
      [] ∧
    sweepByAgeOnlySpec 0
      [("c1", ⟨"c1", ⟨"#t", "s1", "", "", "", ""⟩, none, false, 0, 0, 0⟩)] =
      [("c1", ⟨"c1", ⟨"#t", "s1", "", "", "", ""⟩, none, false, 0, 0, 0⟩)] ∧
    ¬((0 : Nat) - 0 > sweepMaxAgeMs) := by
  refine ⟨?_, ?_, ?_⟩ <;> decide

/-- C7 amended: on a registry with unique keys (every reachable one),
the sweep removes exactly the sessions that are inactive or whose age
exceeds the idle threshold, and both the threshold (30 minutes) and
the sweep interval (60 seconds) are hardcoded literals in the
handler, not configuration values. -/
theorem sweep_hardcoded_amended (now : Nat) (streams : Reg ConnState)
    (hU : keysUnique streams) :
    (cleanupInactiveConnections now streams).1 =
      streams.filter
        (fun e =>
          e.2.isActive && !(decide (now - e.2.startTime > sweepMaxAgeMs))) ∧
    sweepMaxAgeMs = 30 * 60 * 1000 ∧ sweepIntervalMs = 60000 := by
  refine ⟨?_, rfl, rfl⟩
  unfold cleanupInactiveConnections
  rw [sweepFold_fst now streams ⟨streams, []⟩]
  rw [sweepErase_eq_filter now streams streams]
  exact List.filter_congr (fun a hmem => sweepHits_unique now streams hU a hmem)

/-- C7 amended witness: a one-entry registry with a fresh active
session is left untouched by the sweep. -/
theorem sweep_hardcoded_amended_witness :
    keysUnique
      [("c1", (⟨"c1", ⟨"#t", "s1", "", "", "", ""⟩, none, true, 0, 0, 0⟩ :
        ConnState))] ∧
    (cleanupInactiveConnections 5
      [("c1", ⟨"c1", ⟨"#t", "s1", "", "", "", ""⟩, none, true, 0, 0, 0⟩)]).1 =
      [("c1", (⟨"c1", ⟨"#t", "s1", "", "", "", ""⟩, none, true, 0, 0, 0⟩ :
        ConnState))].filter
        (fun e =>
          e.2.isActive && !(decide (5 - e.2.startTime > sweepMaxAgeMs))) :=
  ⟨by simp [keysUnique],
   (sweep_hardcoded_amended 5 _ (by simp [keysUnique])).1⟩
/-- C5: a Slack delivery is attempted only when the event is final,
a destination channel is configured, and the transcript is non-empty
after trimming; and a failing Slack delivery is logged while leaving
the client-facing deliveries (the `onTranscript` invocation and the
client send) exactly as they are on success — the handler itself
touches no session state. -/
theorem dispatcher_slack_gating (opts : StreamOpts) (d : DgData)
    (wsOpen slackFails : Bool) (now : String) :
    (∀ ch txt, DgEffect.slackPost ch txt ∈
        onTranscriptEvent opts d wsOpen slackFails now →
      d.is_final = true ∧ opts.slackChannel ≠ "" ∧
      ∃ alt, d.alternatives.head? = some alt ∧
        jsTrimStr alt.transcript ≠ "") ∧
    ((onTranscriptEvent opts d wsOpen true now).filter isClientEffect =
      (onTranscriptEvent opts d wsOpen false now).filter isClientEffect) ∧
    (∀ ch txt, DgEffect.slackPost ch txt ∈
        onTranscriptEvent opts d wsOpen true now →
      DgEffect.errLog "Failed to send transcription to Slack:" ∈
        onTranscriptEvent opts d wsOpen true now) := by
  rcases hh : d.alternatives.head? with _ | alt
  · refine ⟨?_, ?_, ?_⟩ <;> simp [onTranscriptEvent, hh]
  · by_cases ht : alt.transcript = ""
    · refine ⟨?_, ?_, ?_⟩ <;> simp [onTranscriptEvent, hh, ht]
    · by_cases hcnd : d.is_final = true ∧ opts.slackChannel ≠ "" ∧
        jsTrimStr alt.transcript ≠ ""
      · refine ⟨?_, ?_, ?_⟩
        · intro ch txt _
          exact ⟨hcnd.1, hcnd.2.1, alt, rfl, hcnd.2.2⟩
        · by_cases hco : opts.hasOnTranscript = true <;>
            by_cases hwo : wsOpen = true <;>
            simp [onTranscriptEvent, hh, ht, hcnd.1, hcnd.2.1, hcnd.2.2,
              hco, hwo, sendToSlack, isClientEffect]
        · intro ch txt _
          by_cases hco : opts.hasOnTranscript = true <;>
            by_cases hwo : wsOpen = true <;>
            simp [onTranscriptEvent, hh, ht, hcnd.1, hcnd.2.1, hcnd.2.2,
              hco, hwo, sendToSlack]
      · refine ⟨?_, ?_, ?_⟩
        · intro ch txt hmem
          exfalso
          by_cases hco : opts.hasOnTranscript = true <;>
            by_cases hwo : wsOpen = true <;>
            simp [onTranscriptEvent, hh, ht, hcnd, hco, hwo] at hmem
        · by_cases hco : opts.hasOnTranscript = true <;>
            by_cases hwo : wsOpen = true <;>
            simp [onTranscriptEvent, hh, ht, hcnd, hco, hwo]
        · intro ch txt hmem
          exfalso
          by_cases hco : opts.hasOnTranscript = true <;>
            by_cases hwo : wsOpen = true <;>
            simp [onTranscriptEvent, hh, ht, hcnd, hco, hwo] at hmem

/-- C5 witness: a final "hello" event on channel "#c" attempts a
Slack post, so the gating conditions all hold for it. -/
theorem dispatcher_slack_gating_witness :
    (⟨[⟨"hello", 9, []⟩], true, 1, 0, 0⟩ : DgData).is_final = true ∧
    (⟨"s1", "#c", "", true⟩ : StreamOpts).slackChannel ≠ "" ∧
    (∃ alt, (⟨[⟨"hello", 9, []⟩], true, 1, 0, 0⟩ : DgData).alternatives.head? =
        some alt ∧ jsTrimStr alt.transcript ≠ "") :=
  (dispatcher_slack_gating ⟨"s1", "#c", "", true⟩
      ⟨[⟨"hello", 9, []⟩], true, 1, 0, 0⟩ true true "t0").1 "#c"
    ("🎤 *Live Transcription*\n" ++ "hello") (by decide)

/-- C6 counterexample: a backend result whose first alternative has an
empty transcript — the shape of a typical interim result — produces no
effects at all, in particular the registered `onTranscript` callback
is not invoked, so the callback does not fire for every interim and
final result. -/
theorem transcript_callback_counterexample :
    onTranscriptEvent ⟨"s1", "#c", "", true⟩
      ⟨[⟨"", 0, []⟩], false, 0, 0, 0⟩ true false "t0" = [] ∧
    (⟨"s1", "#c", "", true⟩ : StreamOpts).hasOnTranscript = true := by
  exact ⟨by decide, rfl⟩

/-- C6 amended: the `onTranscript` callback registered at open time is
invoked, with a result carrying the alternative's text and the event's
finality, for every interim and final result whose first alternative
has a non-empty transcript; events with no alternative or an empty
transcript string are dropped without invoking it. -/
theorem transcript_callback_amended (opts : StreamOpts) (d : DgData)
    (wsOpen slackFails : Bool) (now : String) (alt : DgAlt)
    (h1 : d.alternatives.head? = some alt) (h2 : alt.transcript ≠ "")
    (h3 : opts.hasOnTranscript = true) :
    ∃ r, DgEffect.callOnTranscript r ∈
        onTranscriptEvent opts d wsOpen slackFails now ∧
      r.transcript = alt.transcript ∧ r.isFinal = d.is_final := by
  refine ⟨⟨opts.sessionId, opts.conversationId, alt.transcript,
    alt.confidence, d.is_final, d.duration, d.start, d.channel_index,
    alt.words, now⟩, ?_, rfl, rfl⟩
  simp [onTranscriptEvent, h1, h2, h3]

/-- C6 amended witness: an interim "hi" event invokes the callback. -/
theorem transcript_callback_amended_witness :
    ∃ r, DgEffect.callOnTranscript r ∈
        onTranscriptEvent ⟨"s1", "#c", "", true⟩
          ⟨[⟨"hi", 0, []⟩], false, 0, 0, 0⟩ true false "t0" ∧
      r.transcript = "hi" ∧ r.isFinal = false :=
  transcript_callback_amended ⟨"s1", "#c", "", true⟩
    ⟨[⟨"hi", 0, []⟩], false, 0, 0, 0⟩ true false "t0" ⟨"hi", 0, []⟩
    rfl (by decide) rfl
theorem removeFirstAux_subset (f : List Char → Option Nat) :
    ∀ l c, c ∈ removeFirstAux f l → c ∈ l := by
  intro l
  induction l with
  | nil => intro c hc; simp [removeFirstAux] at hc
  | cons a rest ih =>
      intro c hc
      cases hf : f (a :: rest) with
      | none =>
          simp only [removeFirstAux, hf] at hc
          rcases List.mem_cons.mp hc with h | h
          · exact h ▸ List.mem_cons_self a rest
          · exact List.mem_cons_of_mem a (ih c h)
      | some n =>
          simp only [removeFirstAux, hf] at hc
          exact List.mem_of_mem_drop hc

theorem removeAllAux_subset (f : List Char → Option Nat) :
    ∀ fuel l c, c ∈ removeAllAux f fuel l → c ∈ l := by
  intro fuel
  induction fuel with
  | zero => intro l c hc; simpa [removeAllAux] using hc
  | succ fuel ih =>
      intro l c hc
      match l with
      | [] => simp [removeAllAux] at hc
      | a :: rest =>
          cases hf : f (a :: rest) with
          | none =>
              simp only [removeAllAux, hf] at hc
              rcases List.mem_cons.mp hc with h | h
              · exact h ▸ List.mem_cons_self a rest
              · exact List.mem_cons_of_mem a (ih rest c h)
          | some n =>
              simp only [removeAllAux, hf] at hc
              exact List.mem_cons_of_mem a
                (List.mem_of_mem_drop (ih _ c hc))

theorem removeAllMatches_subset (f : List Char → Option Nat) :
    ∀ l c, c ∈ removeAllMatches f l → c ∈ l := by
  intro l c hc
  exact removeAllAux_subset f l.length l c hc

theorem escChar_no_forbidden (a c : Char) (hc : c ∈ escChar a) :
    c ≠ '<' ∧ c ≠ '>' ∧ c ≠ qmChar := by
  unfold escChar at hc
  by_cases h1 : a = '<'
  · rw [if_pos h1] at hc
    rw [show "&lt;".toList = ['&', 'l', 't', ';'] from rfl] at hc
    fin_cases hc <;> refine ⟨by decide, by decide, by decide⟩
  · rw [if_neg h1] at hc
    by_cases h2 : a = '>'
    · rw [if_pos h2] at hc
      rw [show "&gt;".toList = ['&', 'g', 't', ';'] from rfl] at hc
      fin_cases hc <;> refine ⟨by decide, by decide, by decide⟩
    · rw [if_neg h2] at hc
      by_cases h3 : a = qmChar
      · rw [if_pos h3] at hc
        rw [show "&quot;".toList = ['&', 'q', 'u', 'o', 't', ';'] from rfl]
          at hc
        fin_cases hc <;> refine ⟨by decide, by decide, by decide⟩
      · rw [if_neg h3] at hc
        by_cases h4 : a = apChar
        · rw [if_pos h4] at hc
          rw [show "&#x27;".toList = ['&', '#', 'x', '2', '7', ';'] from rfl]
            at hc
          fin_cases hc <;> refine ⟨by decide, by decide, by decide⟩
        · rw [if_neg h4] at hc
          by_cases h5 : a = '/'
          · rw [if_pos h5] at hc
            rw [show "&#x2F;".toList = ['&', '#', 'x', '2', 'F', ';'] from rfl]
              at hc
            fin_cases hc <;> refine ⟨by decide, by decide, by decide⟩
          · rw [if_neg h5] at hc
            rcases List.mem_singleton.mp hc with rfl
            refine ⟨h1, h2, h3⟩

theorem escapeHtmlChars_no_forbidden (l : List Char) :
    ∀ c ∈ escapeHtmlChars l, c ≠ '<' ∧ c ≠ '>' ∧ c ≠ qmChar := by
  intro c hc
  unfold escapeHtmlChars at hc
  rcases List.mem_flatMap.mp hc with ⟨a, _, hca⟩
  exact escChar_no_forbidden a c hca

theorem sanitizePipeline_clean (n : Nat) (sp : Bool) (l : List Char) :
    ∀ c ∈ sanitizePipeline ⟨n, false, sp⟩ l,
      c ≠ '<' ∧ c ≠ '>' ∧ c ≠ qmChar ∧ isCtlChr c = false := by
  intro c hc
  unfold sanitizePipeline at hc
  have h9 := removeAllMatches_subset onAttrMatch _ c hc
  have h8 := removeAllMatches_subset jsProtoMatch _ c h9
  have h7 := removeAllMatches_subset scriptTagMatch _ c h8
  have h6 := removeFirstAux_subset keywordMatch _ c h7
  have h5 := removeFirstAux_subset sqlTokenMatch _ c h6
  have h5' := List.mem_filter.mp h5
  have hctl : isCtlChr c = false := by
    have := h5'.2
    simp at this
    exact this
  have h4 : c ∈ escapeHtmlChars ((jsTrimL l).take n) := by
    have h4' := h5'.1
    by_cases hsp : sp = true
    · rw [hsp] at h4'
      simpa using h4'
    · have hsp' : sp = false := by
        rcases Bool.eq_false_or_eq_true sp with h | h
        · exact (hsp h).elim
        · exact h
      rw [hsp'] at h4'
      simp only [if_neg] at h4'
      exact (List.mem_filter.mp (by simpa using h4')).1
  have hesc := escapeHtmlChars_no_forbidden _ c h4
  exact ⟨hesc.1, hesc.2.1, hesc.2.2, hctl⟩

theorem sanitizeInput_clean_aux (input : Option String) (n : Nat) (sp : Bool) :
    ∀ c ∈ (sanitizeInput input ⟨n, false, sp⟩).toList,
      c ≠ '<' ∧ c ≠ '>' ∧ c ≠ qmChar ∧ isCtlChr c = false := by
  intro c hc
  match input with
  | none => simp [sanitizeInput] at hc
  | some s =>
      by_cases hs : s = ""
      · simp [sanitizeInput, hs] at hc
      · rw [show sanitizeInput (some s) ⟨n, false, sp⟩ =
            ⟨sanitizePipeline ⟨n, false, sp⟩ s.toList⟩ by
          simp [sanitizeInput, hs]] at hc
        exact sanitizePipeline_clean n sp s.toList c hc

/-- C9: with `allowHtml` false (the default used for connection
parameters), `sanitizeInput` returns a string containing no `<`, no
`>`, no double quote and no ASCII control character (0x00-0x1F,
0x7F); it returns the empty string for every non-string or falsy
input; and consequently every field of a sanitized connection
parameter set satisfies these character restrictions. -/
theorem sanitizeInput_clean :
    (∀ (input : Option String) (n : Nat) (sp : Bool),
      ∀ c ∈ (sanitizeInput input ⟨n, false, sp⟩).toList,
        c ≠ '<' ∧ c ≠ '>' ∧ c ≠ qmChar ∧ isCtlChr c = false) ∧
    (∀ opts, sanitizeInput none opts = "" ∧
      sanitizeInput (some "") opts = "") ∧
    (∀ raw : RawParams, ∀ s ∈ paramFields (sanitizeConnectionParams raw),
      ∀ c ∈ s.toList,
        c ≠ '<' ∧ c ≠ '>' ∧ c ≠ qmChar ∧ isCtlChr c = false) := by
  refine ⟨sanitizeInput_clean_aux, ?_, ?_⟩
  · intro opts
    exact ⟨rfl, by simp [sanitizeInput]⟩
  · intro raw s hs
    simp only [paramFields, sanitizeConnectionParams, List.mem_cons,
      List.mem_singleton] at hs
    rcases hs with rfl | rfl | rfl | rfl | rfl | rfl | hs
    · exact sanitizeInput_clean_aux raw.channel 100 true
    · exact sanitizeInput_clean_aux raw.session 100 true
    · exact sanitizeInput_clean_aux raw.conversation 100 true
    · exact sanitizeInput_clean_aux raw.user 100 true
    · exact sanitizeInput_clean_aux raw.language 10 true
    · exact sanitizeInput_clean_aux raw.model 50 true
    · cases hs

/-- C9 witness: the sanitized string "a" keeps its only character,
which satisfies all the character restrictions. -/
theorem sanitizeInput_clean_witness :
    ('a' : Char) ≠ '<' ∧ ('a' : Char) ≠ '>' ∧ ('a' : Char) ≠ qmChar ∧
      isCtlChr 'a' = false :=
  sanitizeInput_clean.1 (some "a") 100 true 'a' (by decide)
